import Mathlib

/-!
Shallow embedding of the `etl-pipeline` Go repository, for checking its
natural-language specification against the code.

Modelling conventions:
* Go's `map[string]interface{}` (a record decoded from JSON) is an association
  list from string keys to `JValue`; indexing is `List.lookup`, which returns
  `none` for an absent key, matching a failed Go map lookup.
* Go `float64` JSON numbers are modelled as `ℚ` (exact values; the claims are
  about truncation semantics, not rounding error), and Go's `int(f)`
  conversion — truncation toward zero — is `truncRat`.
* Fallible Go functions returning `(T, error)` become `Except String T` or a
  pair with an `Option String` error component.
* Effects on the outside world (database execution, HTTP transport, the file
  system, metric counters) are explicit: oracles passed as arguments, and
  state or deltas returned.
-/

namespace ETL

/-- A JSON value as decoded by `encoding/json` into `interface{}`:
strings, numbers (always `float64` in Go, modelled as `ℚ`), booleans, null,
and a collapsed case `other` for nested arrays/objects (whose only relevant
behaviour here is that Go type assertions `.(float64)` / `.(string)` fail
on them). -/
inductive JValue where
  | str (s : String)
  | num (q : ℚ)
  | boolean (b : Bool)
  | null
  | other
deriving DecidableEq, Repr

/-- Go's `map[string]interface{}`: one raw record from the upstream API. -/
abbrev RawRecord := List (String × JValue)

/-- Struct `database.ProcessedRecord` (postgres.go): the normalized record shape. -/
structure ProcessedRecord where
  UserID : ℤ
  Title : String
  Body : String
deriving DecidableEq, Repr

/-- Go's `int(f)` conversion on a `float64`: truncation toward zero.
For `q = num/den` in lowest terms with `den > 0`, integer T-division
(`Int.tdiv`, rounding toward zero) of `num` by `den` truncates toward
zero. -/
def truncRat (q : ℚ) : ℤ := q.num.tdiv (q.den : ℤ)

/-- The Go type assertion `v.(float64)` on a map-lookup result: succeeds
exactly when the key was present and held a JSON number. -/
def asFloat : Option JValue → Option ℚ
  | some (.num q) => some q
  | _ => none

/-- The Go type assertion `v.(string)` on a map-lookup result: succeeds
exactly when the key was present and held a string. -/
def asString : Option JValue → Option String
  | some (.str s) => some s
  | _ => none

/-- Go's `strings.TrimSpace`: remove leading and trailing whitespace.
Implemented structurally over the character list. -/
def trimSpace (s : String) : String :=
  ⟨((s.data.dropWhile Char.isWhitespace).reverse.dropWhile Char.isWhitespace).reverse⟩

/-- Embedding of `Transformer.transformRecord` (transformer.go lines 70-101): extract
`userId` as float64 (reject if the assertion fails), extract `title` and
`body` as strings defaulting to `""` when the assertion fails, trim both,
reject on empty trimmed title, else build the `ProcessedRecord`. -/
def transformRecord (record : RawRecord) : Except String ProcessedRecord :=
  match asFloat (record.lookup "userId") with
  | none => .error "invalid or missing userId"
  | some userID =>
    let title := (asString (record.lookup "title")).getD ""
    let body := (asString (record.lookup "body")).getD ""
    let title := trimSpace title
    let body := trimSpace body
    if title = "" then .error "title cannot be empty"
    else .ok ⟨truncRat userID, title, body⟩

/-- The loop body of `Transformer.Transform` (transformer.go lines 42-53):
per record, a failed `transformRecord` increments the error count and
continues; a success is appended to the output slice. Returns the collected
successes (in order) and the error count. -/
def transformLoop : List RawRecord → List ProcessedRecord × ℕ
  | [] => ([], 0)
  | record :: rest =>
    match transformRecord record with
    | .error _ => ((transformLoop rest).1, (transformLoop rest).2 + 1)
    | .ok p => (p :: (transformLoop rest).1, (transformLoop rest).2)

/-- Struct `transform.TransformedData` (the fields the pipeline consumes). -/
structure TransformedData where
  Records : List ProcessedRecord
  TotalRecords : ℕ
deriving DecidableEq, Repr

/-- Embedding of `Transformer.Transform` (transformer.go lines 36-67): runs the loop over
all records and always returns `nil` error — the only `return` statement
returns the built `TransformedData` and `nil`. The second component is the
returned Go `error`. -/
def Transform (rawData : List RawRecord) : TransformedData × Option String :=
  (⟨(transformLoop rawData).1, (transformLoop rawData).1.length⟩, none)

/-! ## File Sink (`storage.FileStorage`, part_002) -/

/-- The file system, as visible to the File Sink: a list of (path, contents)
pairs, one entry per existing file. -/
abbrev FS := List (String × String)

/-- Model of `os.OpenFile(name, O_CREATE|O_WRONLY|O_APPEND, 0644)` followed by a
single `Write`: if the file exists its contents are extended (the append
flag), otherwise the file is created with the given contents. With these
flags the open never fails on an existing file. -/
def fsAppendWrite (fs : FS) (name content : String) : FS :=
  match fs.lookup name with
  | some old => fs.map (fun p => if p.1 = name then (p.1, old ++ content) else p)
  | none => fs ++ [(name, content)]

/-- Filename built by `FileStorage.SaveRawData`: `raw/raw_data_<ts>.json`,
where `<ts>` is `time.Now().UTC().Format("20060102_150405")` — a
second-resolution timestamp string, passed in here explicitly. -/
def rawDataFilename (timestamp : String) : String :=
  "raw/raw_data_" ++ timestamp ++ ".json"

/-- Filename built by `FileStorage.SaveProcessedData`. -/
def processedDataFilename (timestamp : String) : String :=
  "processed/processed_data_" ++ timestamp ++ ".json"

/-- Embedding of `FileStorage.SaveRawData` (part_002 lines 28-59): builds the
second-resolution timestamped name, marshals the batch (`jsonData` is the
marshalled text, always produced for decoded JSON input), opens with
`O_CREATE|O_WRONLY|O_APPEND` and writes. Returns the new file system and
the Go `error` (`none`: the open-append path has no collision check, so an
existing same-named file is silently appended to, never an error). -/
def SaveRawData (fs : FS) (timestamp jsonData : String) : FS × Option String :=
  (fsAppendWrite fs (rawDataFilename timestamp) jsonData, none)

/-- Embedding of `FileStorage.SaveProcessedData` (part_002 lines 62-93): identical
open-append behaviour under the `processed/` directory. -/
def SaveProcessedData (fs : FS) (timestamp jsonData : String) : FS × Option String :=
  (fsAppendWrite fs (processedDataFilename timestamp) jsonData, none)

/-! ## Persistence Sink (`database.PostgresDB`, postgres.go) -/

/-- Rendering of one decoded JSON value back to text, standing in for
`json.Marshal` on values that came from `json.Unmarshal` (total on such
values). -/
def renderJValue : JValue → String
  | .str s => "\x22" ++ s ++ "\x22"
  | .num q => toString q
  | .boolean true => "true"
  | .boolean false => "false"
  | .null => "null"
  | .other => "null"

/-- Model of `json.Marshal(record)` for one raw record. -/
def marshalRecord (record : RawRecord) : String :=
  "\x7b" ++ String.intercalate ","
    (record.map (fun p => "\x22" ++ p.1 ++ "\x22:" ++ renderJValue p.2)) ++ "\x7d"

/-- The insert loop of `PostgresDB.InsertRawData` (postgres.go lines 91-101)
inside the open transaction: marshal each record and execute the prepared
insert. `execOk` is the database's verdict on one row's `Exec`. Returns the
rows buffered in the transaction on full success, `none` on the first
failure (the function returns early and the deferred `tx.Rollback()` runs). -/
def insertRawLoop (execOk : String → Bool) : List RawRecord → List String → Option (List String)
  | [], acc => some acc
  | record :: rest, acc =>
    let jsonData := marshalRecord record
    if execOk jsonData then insertRawLoop execOk rest (acc ++ [jsonData])
    else none

/-- Embedding of `PostgresDB.InsertRawData` (postgres.go lines 79-108): begin a
transaction, run the insert loop, commit on full success (all rows become
visible), roll back on any single failure (the store is unchanged) and
return the error. -/
def InsertRawData (execOk : String → Bool) (db : List String) (data : List RawRecord) :
    List String × Option String :=
  match insertRawLoop execOk data [] with
  | none => (db, some "failed to insert record")
  | some rows => (db ++ rows, none)

/-- The insert loop of `PostgresDB.InsertProcessedData` (postgres.go lines
124-128): execute the prepared three-column insert per record, early return
on the first failure. -/
def insertProcessedLoop (execOk : ProcessedRecord → Bool) :
    List ProcessedRecord → List ProcessedRecord → Option (List ProcessedRecord)
  | [], acc => some acc
  | record :: rest, acc =>
    if execOk record then insertProcessedLoop execOk rest (acc ++ [record])
    else none

/-- Embedding of `PostgresDB.InsertProcessedData` (postgres.go lines 111-135): same
transactional shape as `InsertRawData`, over typed rows. -/
def InsertProcessedData (execOk : ProcessedRecord → Bool) (db : List ProcessedRecord)
    (records : List ProcessedRecord) : List ProcessedRecord × Option String :=
  match insertProcessedLoop execOk records [] with
  | none => (db, some "failed to insert processed record")
  | some rows => (db ++ rows, none)

/-! ## Fetcher (`api.Client`, part_001) -/

/-- The observable pieces of one HTTP response, as `FetchData` consumes
them: the status code, whether `io.ReadAll` on the body succeeds, and the
`json.Unmarshal` result on the body when it was read (`none`: not a JSON
array of objects). -/
structure HttpResponse where
  statusCode : ℕ
  readOk : Bool
  decoded : Option (List RawRecord)
deriving DecidableEq

/-- The outcome of `httpClient.Get`: `none` is a transport error
(connection failure / timeout), `some` is a received response. -/
structure FetchEnv where
  getResult : Option HttpResponse
deriving DecidableEq

/-- The error taxonomy of the fetch stage. `readError` is the `io.ReadAll`
failure path, a network-level failure in the spec's taxonomy. -/
inductive FetchError where
  | networkError
  | protocolError (status : ℕ)
  | readError
  | decodeError
deriving DecidableEq, Repr

/-- The metric increments performed by one `FetchData` call:
`APIRequestsTotal`, `APIRequestsFailedTotal`, and the number of
`APIRequestDuration.Observe` calls. -/
structure MetricsDelta where
  apiRequests : ℕ
  apiFailed : ℕ
  latencyObservations : ℕ
deriving DecidableEq, Repr

/-- Embedding of `Client.FetchData` (part_001 lines 35-74), metric increments made
explicit. Control flow mirror: `APIRequestsTotal.Inc()` first; `Get`; on
transport error increment failed and return — note this return precedes
the `APIRequestDuration.Observe` line, so no latency observation happens on
that path; otherwise observe latency, then check `StatusCode != 200`
(`http.StatusOK`), then `io.ReadAll`, then `json.Unmarshal`, each failure
incrementing the failed counter once and returning. -/
def FetchData (env : FetchEnv) : MetricsDelta × Except FetchError (List RawRecord) :=
  match env.getResult with
  | none => (⟨1, 1, 0⟩, .error .networkError)
  | some resp =>
    if resp.statusCode ≠ 200 then
      (⟨1, 1, 1⟩, .error (.protocolError resp.statusCode))
    else if resp.readOk = false then
      (⟨1, 1, 1⟩, .error .readError)
    else
      match resp.decoded with
      | none => (⟨1, 1, 1⟩, .error .decodeError)
      | some data => (⟨1, 0, 1⟩, .ok data)

/-- Modelled from the spec (§4.2, §6; not a definition of the source): the
HTTP success-status class, "2xx", giving meaning to the spec's phrase
"non-success HTTP status". The source compares against the single code 200. -/
def specSuccessStatus (status : ℕ) : Bool :=
  decide (200 ≤ status) && decide (status < 300)

/-! ## Cycle Orchestrator (`ETLService.runPipeline`, service.go) -/

/-- The stages of one pipeline cycle, in the order `runPipeline` runs them. -/
inductive Stage where
  | fetching
  | persistingRaw
  | writingRawFile
  | normalizing
  | persistingNormalized
  | writingNormalizedFile
deriving DecidableEq, Repr

/-- The terminal outcome of one cycle: aborted at a stage (an early
`return` in `runPipeline`) or completed. -/
inductive Outcome where
  | abortedFetch
  | abortedPersistRaw
  | abortedNormalize
  | abortedPersistNormalized
  | completed
deriving DecidableEq, Repr

/-- The collaborator outcomes one cycle can encounter, as `runPipeline`
observes them: the fetch result, and success/failure of each of the two
database inserts and the two file saves. (`saveRawOk` and
`saveProcessedOk` are carried so that independence of the control flow from
them is a statement about this function, not a modelling choice.) -/
structure CycleEnv where
  fetchResult : Option (List RawRecord)
  insertRawOk : Bool
  saveRawOk : Bool
  insertProcessedOk : Bool
  saveProcessedOk : Bool
deriving DecidableEq

/-- Embedding of `ETLService.runPipeline` (service.go lines 67-121), returning the list
of stages entered (in order) and the outcome. Control flow mirror:
fetch error → `return`; `InsertRawData` error → `return`; `SaveRawData`
error → logged only, "Continue even if file save fails"; `Transform` —
its returned `error` non-nil → `return` (this is the branch at lines
96-100); `InsertProcessedData` error → `return`; `SaveProcessedData`
error → logged only; then the completion log line runs. -/
def runPipeline (env : CycleEnv) : List Stage × Outcome :=
  match env.fetchResult with
  | none => ([.fetching], .abortedFetch)
  | some rawData =>
    if env.insertRawOk = false then
      ([.fetching, .persistingRaw], .abortedPersistRaw)
    else
      match (Transform rawData).2 with
      | some _ =>
        ([.fetching, .persistingRaw, .writingRawFile, .normalizing], .abortedNormalize)
      | none =>
        if env.insertProcessedOk = false then
          ([.fetching, .persistingRaw, .writingRawFile, .normalizing,
            .persistingNormalized], .abortedPersistNormalized)
        else
          ([.fetching, .persistingRaw, .writingRawFile, .normalizing,
            .persistingNormalized, .writingNormalizedFile], .completed)

/-! ## Scheduler Loop (`ETLService.Start`, service.go lines 46-64)

The loop is a `select` over the cancellation signal and the ticker. Per the
spec's concurrency model (§5: one logical timeline; cancellation observed
at the inter-cycle checkpoint), a run of the loop is determined by the
sequence of events it observes at that checkpoint: each observed event is
either a tick of the fixed-interval timer or the cancellation signal. -/

/-- One event the `select` in `ETLService.Start` observes. -/
inductive SchedEvent where
  | tick
  | cancel
deriving DecidableEq, Repr

/-- The `for { select { ... } }` loop of `ETLService.Start`: on
`ctx.Done()` it returns immediately (no further cycle); on `ticker.C` it
runs one cycle and loops. Returns the number of cycle invocations the loop
makes over the given observed-event sequence. -/
def schedulerLoop : List SchedEvent → ℕ
  | [] => 0
  | .cancel :: _ => 0
  | .tick :: rest => schedulerLoop rest + 1

/-- Embedding of `ETLService.Start`: one unconditional cycle invocation before the loop
("Run immediately on start"), then the loop. Returns the total number of
cycle invocations. -/
def Start (events : List SchedEvent) : ℕ :=
  schedulerLoop events + 1

/-- A concrete non-integer rational, 19/10, given by its reduced fraction. -/
def qNineteenTenths : ℚ := ⟨19, 10, by decide, by decide⟩

end ETL

deriving instance DecidableEq for Except

namespace ETL

/-! ## Helper lemmas -/

/-- Inversion for the float64 type assertion: a successful assertion means
the key held exactly that JSON number. -/
theorem asFloat_eq_some {o : Option JValue} {q : ℚ} (h : asFloat o = some q) :
    o = some (.num q) := by
  match o with
  | some (.num q') => simp [asFloat] at h; simp [h]
  | some (.str s) => simp [asFloat] at h
  | some (.boolean b) => simp [asFloat] at h
  | some .null => simp [asFloat] at h
  | some .other => simp [asFloat] at h
  | none => simp [asFloat] at h

/-- Characterization of the raw insert loop: it returns the accumulated
rows extended by every marshalled record when every row executes, and
`none` as soon as any row fails. -/
theorem insertRawLoop_eq (execOk : String → Bool) (data : List RawRecord) (acc : List String) :
    insertRawLoop execOk data acc =
      if data.all (fun r => execOk (marshalRecord r)) then
        some (acc ++ data.map marshalRecord)
      else none := by
  induction data generalizing acc with
  | nil => simp [insertRawLoop]
  | cons r rest ih =>
    by_cases h : execOk (marshalRecord r) = true
    · simp [insertRawLoop, h, ih]
    · simp [insertRawLoop, h]

/-- Characterization of the processed insert loop, analogous to
`insertRawLoop_eq`. -/
theorem insertProcessedLoop_eq (execOk : ProcessedRecord → Bool)
    (records : List ProcessedRecord) (acc : List ProcessedRecord) :
    insertProcessedLoop execOk records acc =
      if records.all (fun r => execOk r) then some (acc ++ records) else none := by
  induction records generalizing acc with
  | nil => simp [insertProcessedLoop]
  | cons r rest ih =>
    by_cases h : execOk r = true
    · simp [insertProcessedLoop, h, ih]
    · simp [insertProcessedLoop, h]

/-! ## Claim theorems -/

/-- Claim C3: every raw record whose `userId` field holds a number and
whose `title` field holds a string that is non-empty after trimming is
accepted by `transformRecord`, and the result carries the truncated (not
rounded) identifier, the trimmed title, and the trimmed body (the body
expression defaults to the empty string when the field is absent or not a
string, via `asString`/`getD`). -/
theorem transformRecord_valid (record : RawRecord) (q : ℚ) (s : String)
    (hid : record.lookup "userId" = some (.num q))
    (ht : record.lookup "title" = some (.str s))
    (hne : trimSpace s ≠ "") :
    transformRecord record =
      .ok ⟨truncRat q, trimSpace s, trimSpace ((asString (record.lookup "body")).getD "")⟩ := by
  simp [transformRecord, hid, ht, asFloat, asString, hne]

/-- Witness for C3: the theorem applied to the record
`[userId ↦ 19/10, title ↦ "  A  ", body ↦ "  B  "]` yields
`{UserID := 1, Title := "A", Body := "B"}` — identifier 1, the truncation
of 19/10 (rounding would give 2). -/
theorem transformRecord_valid_witness :
    transformRecord
        [("userId", .num qNineteenTenths), ("title", .str "  A  "), ("body", .str "  B  ")] =
      .ok ⟨1, "A", "B"⟩ := by
  rw [transformRecord_valid
    [("userId", .num qNineteenTenths), ("title", .str "  A  "), ("body", .str "  B  ")]
    qNineteenTenths "  A  " (by decide) (by decide) (by decide)]
  decide

/-- Claim C4: `transformRecord` rejects with the identifier reason whenever
the `userId` field is absent, null, or not numeric (the float64 assertion
fails), regardless of title and body; rejects with the title reason
whenever `userId` is numeric but the title is absent, not a string, empty,
or whitespace-only (its defaulted-and-trimmed form is empty); and no
accepted record lacks a numeric identifier or has an empty title. -/
theorem transformRecord_rejects (record : RawRecord) :
    (asFloat (record.lookup "userId") = none →
      transformRecord record = .error "invalid or missing userId")
    ∧ (∀ q : ℚ, record.lookup "userId" = some (.num q) →
        trimSpace ((asString (record.lookup "title")).getD "") = "" →
        transformRecord record = .error "title cannot be empty")
    ∧ (∀ p : ProcessedRecord, transformRecord record = .ok p →
        (∃ q : ℚ, record.lookup "userId" = some (.num q)) ∧ p.Title ≠ "") := by
  refine ⟨fun h => by simp [transformRecord, h], fun q hq ht => by
    simp [transformRecord, hq, asFloat, ht], fun p hp => ?_⟩
  rcases hof : asFloat (record.lookup "userId") with _ | q
  · simp [transformRecord, hof] at hp
  · refine ⟨⟨q, asFloat_eq_some hof⟩, ?_⟩
    by_cases hT : trimSpace ((asString (record.lookup "title")).getD "") = ""
    · simp [transformRecord, hof, hT] at hp
    · simp [transformRecord, hof, hT] at hp
      simp [← hp]
      exact hT

/-- Witness for C4: a record with no `userId` is rejected with the
identifier reason even with a good title; a record with numeric `userId`
but whitespace-only title is rejected with the title reason. -/
theorem transformRecord_rejects_witness :
    transformRecord [("title", .str "x"), ("body", .str "y")] =
        .error "invalid or missing userId"
    ∧ transformRecord [("userId", .num 2), ("title", .str "   ")] =
        .error "title cannot be empty" :=
  ⟨(transformRecord_rejects [("title", .str "x"), ("body", .str "y")]).1 (by decide),
   (transformRecord_rejects [("userId", .num 2), ("title", .str "   ")]).2.1 2
     (by decide) (by decide)⟩

/-- Claim C5: the batch transform applies `transformRecord` to each element
independently in input order — the output is exactly the in-place
order-preserving filter of the per-record successes (so relative order of
successes is preserved and no rejection halts the batch), and output
length plus rejection count equals input length. -/
theorem transform_batch_shape (l : List RawRecord) :
    (transformLoop l).1 = l.filterMap (fun r => (transformRecord r).toOption)
    ∧ (transformLoop l).1.length + (transformLoop l).2 = l.length
    ∧ (Transform l).1.Records = l.filterMap (fun r => (transformRecord r).toOption) := by
  have key : (transformLoop l).1 = l.filterMap (fun r => (transformRecord r).toOption)
      ∧ (transformLoop l).1.length + (transformLoop l).2 = l.length := by
    induction l with
    | nil => simp [transformLoop]
    | cons r rest ih =>
      rcases h : transformRecord r with e | p
      · simpa [transformLoop, h, Except.toOption] using ⟨ih.1, by omega⟩
      · simpa [transformLoop, h, Except.toOption] using ⟨ih.1, by omega⟩
  exact ⟨key.1, key.2, by simpa [Transform] using key.1⟩

/-- Claim C2: both database inserts are all-or-nothing. If any record of
the batch fails to execute, the call returns an error and the store is
unchanged (the deferred rollback discards the partial transaction); if
every record executes, the whole batch is committed and no error is
returned. -/
theorem insert_all_or_nothing (execOk : String → Bool) (db : List String)
    (data : List RawRecord) (execOkP : ProcessedRecord → Bool)
    (dbP : List ProcessedRecord) (records : List ProcessedRecord) :
    ((∃ r ∈ data, execOk (marshalRecord r) = false) →
      InsertRawData execOk db data = (db, some "failed to insert record"))
    ∧ ((∀ r ∈ data, execOk (marshalRecord r) = true) →
      InsertRawData execOk db data = (db ++ data.map marshalRecord, none))
    ∧ ((∃ r ∈ records, execOkP r = false) →
      InsertProcessedData execOkP dbP records = (dbP, some "failed to insert processed record"))
    ∧ ((∀ r ∈ records, execOkP r = true) →
      InsertProcessedData execOkP dbP records = (dbP ++ records, none)) := by
  refine ⟨fun ⟨r, hr, hfail⟩ => ?_, fun hall => ?_, fun ⟨r, hr, hfail⟩ => ?_, fun hall => ?_⟩
  · have : data.all (fun r => execOk (marshalRecord r)) = false := by
      simp [List.all_eq_true]
      exact ⟨r, hr, by simp [hfail]⟩
    simp [InsertRawData, insertRawLoop_eq, this]
  · have : data.all (fun r => execOk (marshalRecord r)) = true := by
      simpa [List.all_eq_true] using hall
    simp [InsertRawData, insertRawLoop_eq, this]
  · have : records.all (fun r => execOkP r) = false := by
      simp [List.all_eq_true]
      exact ⟨r, hr, by simp [hfail]⟩
    simp [InsertProcessedData, insertProcessedLoop_eq, this]
  · have : records.all (fun r => execOkP r) = true := by
      simpa [List.all_eq_true] using hall
    simp [InsertProcessedData, insertProcessedLoop_eq, this]

/-- Witness for C2: with a database that rejects every row, inserting a
one-record batch into the store `["existing"]` leaves it unchanged and
errors; with a database that accepts every row, the batch is appended and
no error is returned. -/
theorem insert_all_or_nothing_witness :
    InsertRawData (fun _ => false) ["existing"] [[("userId", .num 1)]] =
        (["existing"], some "failed to insert record")
    ∧ InsertProcessedData (fun _ => true) [] [⟨1, "A", "B"⟩] = ([⟨1, "A", "B"⟩], none) :=
  ⟨(insert_all_or_nothing (fun _ => false) ["existing"] [[("userId", .num 1)]]
      (fun _ => true) [] [⟨1, "A", "B"⟩]).1 ⟨[("userId", .num 1)], by decide, rfl⟩,
   by
    have h := (insert_all_or_nothing (fun _ => false) ["existing"] [[("userId", .num 1)]]
      (fun _ => true) [] [⟨1, "A", "B"⟩]).2.2.2 (fun r _ => rfl)
    simpa using h⟩

/-- Claim C1 (code bug evidence): two file-sink writes within the same
second-resolution timestamp window do NOT produce two distinct files.
Evaluating the embedded code at the failing input: the first call creates
`raw/raw_data_20250101_000000.json` with the first batch; the second call
in the same second silently appends the second batch to that same single
file and still reports no error (the open uses `O_CREATE|O_WRONLY|O_APPEND`
with no exclusive-create check); likewise for the processed-data sink. -/
theorem fileSink_same_second_silent_append :
    SaveRawData [] "20250101_000000" "[1]" =
        ([("raw/raw_data_20250101_000000.json", "[1]")], none)
    ∧ SaveRawData [("raw/raw_data_20250101_000000.json", "[1]")] "20250101_000000" "[2]" =
        ([("raw/raw_data_20250101_000000.json", "[1][2]")], none)
    ∧ SaveProcessedData [("processed/processed_data_20250101_000000.json", "[1]")]
        "20250101_000000" "[2]" =
        ([("processed/processed_data_20250101_000000.json", "[1][2]")], none) := by
  decide

/-- Claim C6: within one cycle, a fetch failure aborts with no further
stage entered; a raw-persist failure aborts before the file-write,
normalize, and normalized-persist stages; a raw-file-write failure is
non-fatal — the cycle still reaches the normalize stage; and a
normalized-file-write failure does not prevent the cycle from completing. -/
theorem runPipeline_stage_policy (env : CycleEnv) :
    (env.fetchResult = none → runPipeline env = ([.fetching], .abortedFetch))
    ∧ (env.fetchResult.isSome → env.insertRawOk = false →
        runPipeline env = ([.fetching, .persistingRaw], .abortedPersistRaw))
    ∧ (env.fetchResult.isSome → env.insertRawOk = true → env.saveRawOk = false →
        Stage.normalizing ∈ (runPipeline env).1)
    ∧ (env.fetchResult.isSome → env.insertRawOk = true → env.insertProcessedOk = true →
        env.saveProcessedOk = false → (runPipeline env).2 = .completed) := by
  obtain ⟨fr, iR, sR, iP, sP⟩ := env
  refine ⟨fun h => ?_, fun hs hR => ?_, fun hs hR hsR => ?_, fun hs hR hP hsP => ?_⟩
  · simp only at h; subst h; rfl
  · rcases fr with _ | raw
    · simp at hs
    · simp only at hR; subst hR; rfl
  · rcases fr with _ | raw
    · simp at hs
    · simp only at hR; subst hR
      rcases iP with _ | _ <;> simp [runPipeline, Transform]
  · rcases fr with _ | raw
    · simp at hs
    · simp only at hR hP; subst hR; subst hP; rfl

/-- Witness for C6: concrete cycles — a failed fetch yields the one-stage
aborted trace; and a cycle whose only failures are the two file writes
still completes. -/
theorem runPipeline_stage_policy_witness :
    runPipeline ⟨none, true, true, true, true⟩ = ([.fetching], .abortedFetch)
    ∧ (runPipeline ⟨some [], true, false, true, false⟩).2 = .completed :=
  ⟨(runPipeline_stage_policy ⟨none, true, true, true, true⟩).1 rfl,
   (runPipeline_stage_policy ⟨some [], true, false, true, false⟩).2.2.2
     (by decide) rfl rfl rfl⟩

/-- Claim C10: the batch transform returns a nil error on every input (all
per-record failures are absorbed as rejections), and consequently the
orchestrator's transformation-failure abort branch is dead: no cycle, over
any collaborator outcomes, ends aborted at the normalize stage. -/
theorem transform_never_fails (l : List RawRecord) (env : CycleEnv) :
    (Transform l).2 = none ∧ (runPipeline env).2 ≠ .abortedNormalize := by
  refine ⟨rfl, ?_⟩
  rcases env with ⟨_ | raw, iR, sR, iP, sP⟩
  · simp [runPipeline]
  · rcases iR with _ | _
    · simp [runPipeline]
    · rcases iP with _ | _ <;> simp [runPipeline, Transform]

/-- Claim C7 counterexample: on a transport failure of the HTTP call
(`httpClient.Get` returns an error — the spec's `NetworkError`), the
embedded `FetchData` records NO latency observation: the early return at
part_001 lines 42-46 precedes the `APIRequestDuration.Observe` call. The
claim's "latency observation recorded in every case, including
NetworkError" is therefore false of the code. -/
theorem fetch_no_latency_on_network_error :
    (FetchData ⟨none⟩).2 = .error .networkError
    ∧ (FetchData ⟨none⟩).1.latencyObservations = 0
    ∧ (FetchData ⟨none⟩).1.apiRequests = 1
    ∧ (FetchData ⟨none⟩).1.apiFailed = 1 := by
  decide

/-- Claim C7 (amended): every `FetchData` call increments the attempt
counter exactly once before the HTTP call; a latency observation is
recorded exactly when the HTTP call itself returns a response (success,
ProtocolError, body-read failure, or DecodeError) and NOT on a transport
(`NetworkError`) failure; and the failure counter is incremented exactly
once if and only if the call returns an error. -/
theorem fetch_metrics (env : FetchEnv) :
    (FetchData env).1.apiRequests = 1
    ∧ (FetchData env).1.latencyObservations = (if env.getResult.isSome then 1 else 0)
    ∧ (FetchData env).1.apiFailed = (if ((FetchData env).2.toOption).isSome then 0 else 1) := by
  rcases env with ⟨_ | ⟨status, readOk, dec⟩⟩
  · simp [FetchData, Except.toOption]
  · by_cases hs : status = 200
    · rcases readOk with _ | _
      · simp [FetchData, hs, Except.toOption]
      · rcases dec with _ | d <;> simp [FetchData, hs, Except.toOption]
    · simp [FetchData, hs, Except.toOption]

/-- Claim C8 counterexample: status 204 (No Content) is an HTTP success
status (2xx), yet the embedded `FetchData` rejects a 204 response with a
well-formed body as a protocol error — the code compares against the
single code 200 (`http.StatusOK`), not the success class. -/
theorem fetch_rejects_success_status_204 :
    specSuccessStatus 204 = true
    ∧ (FetchData ⟨some ⟨204, true, some []⟩⟩).2 = .error (.protocolError 204) := by
  decide

/-- Claim C8 (amended): for every received HTTP response, `FetchData`
returns a ProtocolError exactly when the status code differs from 200,
independent of the response body (body-read outcome and decode outcome are
arbitrary in the quantification); equivalently, no response with status
exactly 200 is rejected on status grounds. -/
theorem fetch_protocol_error_iff (env : FetchEnv) (resp : HttpResponse)
    (h : env.getResult = some resp) :
    (∃ s, (FetchData env).2 = .error (.protocolError s)) ↔ resp.statusCode ≠ 200 := by
  obtain ⟨gr⟩ := env
  simp only at h
  subst h
  rcases resp with ⟨status, readOk, dec⟩
  by_cases hs : status = 200
  · rcases readOk with _ | _
    · simp [FetchData, hs]
    · rcases dec with _ | d <;> simp [FetchData, hs]
  · simp [FetchData, hs]

/-- Witness for C8 (amended): a 500 response is rejected as a protocol
error, and a 200 response with a decodable body is not rejected on status
grounds. -/
theorem fetch_protocol_error_iff_witness :
    (∃ s, (FetchData ⟨some ⟨500, true, some []⟩⟩).2 = .error (.protocolError s))
    ∧ ¬ (∃ s, (FetchData ⟨some ⟨200, true, some []⟩⟩).2 = .error (.protocolError s)) :=
  ⟨(fetch_protocol_error_iff ⟨some ⟨500, true, some []⟩⟩ ⟨500, true, some []⟩ rfl).2
     (by decide),
   fun hex =>
     by exact absurd ((fetch_protocol_error_iff ⟨some ⟨200, true, some []⟩⟩
       ⟨200, true, some []⟩ rfl).1 hex) (by decide)⟩

/-- Claim C9: the scheduler loop runs the cycle exactly once immediately
at start (one invocation even with no tick ever observed); with `n` ticks
observed and no cancellation it runs `1 + n` invocations (one per
interval elapse); and everything after the first observed cancellation
contributes no further invocation — the loop returns at the cancellation
checkpoint. -/
theorem scheduler_cycles (n : ℕ) (pre post : List SchedEvent) :
    Start [] = 1
    ∧ Start (List.replicate n .tick) = 1 + n
    ∧ schedulerLoop (pre ++ .cancel :: post) = schedulerLoop (pre ++ [.cancel])
    ∧ Start (.cancel :: post) = 1 := by
  refine ⟨rfl, ?_, ?_, rfl⟩
  · induction n with
    | zero => rfl
    | succ k ih => simp [List.replicate_succ, Start, schedulerLoop] at ih ⊢; omega
  · induction pre with
    | nil => rfl
    | cons e rest ih => rcases e with _ | _ <;> simp [schedulerLoop, ih]

end ETL
